import Mathlib

/-!
# usb-spy-current: sampling and telemetry pipeline of `sw/src/main.c`

A shallow embedding of the firmware's telemetry path: the ADC unit
conversions, the CRC-8 checksum, the packet framer `send_data`, the
interrupt-driven transmitter `send_next_char`, the interrupt handlers and one
pass of the main loop.

Conventions.
* Machine integers are `Nat`; every narrowing the C code performs is an
  explicit `%` (`% 2 ^ 32` for `unsigned int` arithmetic, `% 2 ^ 16` for the
  `(uint16_t)` casts, `% 256` for bytes).
* Globals and the peripheral registers the pipeline touches are the fields of
  `State`.  Writes to `USART2->TDR` are recorded, oldest first, in
  `State.USART2_TDR`.
* The busy wait `while (!(USART2->ISR & USART_ISR_TXE));` of `send_data` has no
  effect on the modelled state; the transmitter is assumed to raise `TXE`.
* A `(pointer, length)` argument is the list of the bytes it designates,
  together with the length.
* `TIM21_IRQHandler` only starts a conversion and touches none of the modelled
  state; the conversion results reach the model as the sample values of a main
  loop pass.
-/

set_option linter.unusedVariables false
set_option maxRecDepth 100000

namespace UsbSpyCurrent

/-! ## Configuration -/

/-- Modelled from the spec: `UART_MSG_SIZE` is defined in `app_cfg.h`, which is
not part of the sources.  The wire format is a six byte frame (start marker,
two 16-bit fields, checksum), and `UART_PADDING_NEEDED` is commented out in
`main.c`, so the packed record has exactly six bytes. -/
def UART_MSG_SIZE : Nat := 6

/-- `#define UART_MSG_SIZE_WO_CRC (UART_MSG_SIZE - 1u)`. -/
def UART_MSG_SIZE_WO_CRC : Nat := UART_MSG_SIZE - 1

/-- `#define ADC_REF_MV (3300u)`. -/
def ADC_REF_MV : Nat := 3300

/-- `#define ADC_REF_LSB (0xFFF)`. -/
def ADC_REF_LSB : Nat := 0xFFF

/-- `#define CURRENT_UA_MA_FACTOR (1000u)`. -/
def CURRENT_UA_MA_FACTOR : Nat := 1000

/-- The constants of `app_cfg.h` used by `main.c`.  The header is not part of
the sources, so its values are parameters.  They are `unsigned int` constant
expressions; the two divisors are non-zero, since a division by zero has no
defined behaviour in C. -/
structure AppCfg where
  CFG_SEND_RAW_DATA : Bool
  CURRENT_AMP_GAIN : Nat
  CURRENT_AMP_SHUNT : Nat
  VOLTAGE_AMP_INV_RATIO : Nat
  VOLTAGE_AMP_GAIN : Nat
  current_divisor_pos : 0 < (CURRENT_AMP_GAIN * CURRENT_AMP_SHUNT) % 2 ^ 32
  voltage_divisor_pos : 0 < VOLTAGE_AMP_GAIN % 2 ^ 32

/-! ## Unit converter -/

/-- `#define _ADC_LSB_TO_MV(x) ((x * ADC_REF_MV)/ADC_REF_LSB)`, in
`unsigned int` arithmetic. -/
def _ADC_LSB_TO_MV (x : Nat) : Nat :=
  (x * ADC_REF_MV) % 2 ^ 32 / ADC_REF_LSB

/-- `#define _CURRENT_MV_TO_UA(x)
(uint16_t)((x * CURRENT_UA_MA_FACTOR)/(CURRENT_AMP_GAIN * CURRENT_AMP_SHUNT))`. -/
def _CURRENT_MV_TO_UA (cfg : AppCfg) (x : Nat) : Nat :=
  ((x * CURRENT_UA_MA_FACTOR) % 2 ^ 32
    / ((cfg.CURRENT_AMP_GAIN * cfg.CURRENT_AMP_SHUNT) % 2 ^ 32)) % 2 ^ 16

/-- `#define _VOLTAGE_MV_TO_MV(x)
(uint16_t)((x * VOLTAGE_AMP_INV_RATIO)/VOLTAGE_AMP_GAIN)`. -/
def _VOLTAGE_MV_TO_MV (cfg : AppCfg) (x : Nat) : Nat :=
  ((x * cfg.VOLTAGE_AMP_INV_RATIO) % 2 ^ 32 / (cfg.VOLTAGE_AMP_GAIN % 2 ^ 32)) % 2 ^ 16

/-- `static uint16_t adc_to_current_microamp(uint16_t current_lsb)`. -/
def adc_to_current_microamp (cfg : AppCfg) (current_lsb : Nat) : Nat :=
  _CURRENT_MV_TO_UA cfg (_ADC_LSB_TO_MV current_lsb)

/-- `static uint16_t adc_to_voltage_millivolt(uint16_t voltage_lsb)`. -/
def adc_to_voltage_millivolt (cfg : AppCfg) (voltage_lsb : Nat) : Nat :=
  _VOLTAGE_MV_TO_MV cfg (_ADC_LSB_TO_MV voltage_lsb)

/-! ## Checksum engine -/

/-- `CRC->INIT = 0u;` in `crc_init`. -/
def CRC_INIT : Nat := 0

/-- `CRC->POL = 0x07;` in `crc_init`. -/
def CRC_POL : Nat := 0x07

/-- Modelled from the spec: one bit step of the CRC unit, which is hardware
and not part of the sources.  As `crc_init` configures it the unit is an 8-bit
CRC that is not reflected: the register is shifted left by one and the
polynomial is added when the bit shifted out is set. -/
def crc_shift (c : Nat) : Nat :=
  if 128 ≤ c % 256 then ((c * 2) % 256) ^^^ CRC_POL else (c * 2) % 256

/-- Modelled from the spec: a byte write to `CRC->DR`, which is hardware and
not part of the sources.  The byte is added to the register, most significant
bit first, and eight bit steps follow. -/
def crc_write (dr b : Nat) : Nat :=
  crc_shift^[8] ((dr % 256) ^^^ (b % 256))

/-- `static uint8_t crc_calculate(uint8_t *data, uint32_t length)`.  The first
argument is the content of `CRC->DR` on entry; the result is the content of
`CRC->DR` on exit and the value returned.  `CRC->CR |= CRC_CR_RESET` loads
`CRC->DR` with `CRC->INIT`. -/
def crc_calculate (dr : Nat) (data : List Nat) (length : Nat) : Nat × Nat :=
  let dr0 := CRC_INIT
  let dr1 := (List.range length).foldl (fun dr i => crc_write dr (data.getD i 0)) dr0
  (dr1, dr1 % 256)

/-! ## Packet and transmission engine -/

/-- `UartStatus_t`. -/
inductive UartStatus_t where
  | TX_IS_FREE
  | TX_IN_PROGRESS
  deriving DecidableEq

open UartStatus_t

/-- `UartPacket_t`: the packed record `m_sValues` and the cursor.  The byte
view `m_acRawBuffer` of the union is derived from the record below. -/
structure UartPacket_t where
  m_u8StartByte : Nat
  m_u16Voltage : Nat
  m_u16Current : Nat
  m_u8CRC : Nat
  m_u8TxIdx : Nat
  deriving DecidableEq

/-- The member `m_acRawBuffer` of the union: the bytes of the packed record
`m_sValues` in memory order, on the little-endian target. -/
def UartPacket_t.m_acRawBuffer (p : UartPacket_t) : List Nat :=
  [p.m_u8StartByte % 256,
   p.m_u16Voltage % 256, p.m_u16Voltage / 256 % 256,
   p.m_u16Current % 256, p.m_u16Current / 256 % 256,
   p.m_u8CRC % 256]

/-- The globals of `main.c` and the peripheral state the pipeline uses. -/
structure State where
  g_u8AdcRdyFlag : Nat
  g_sUartPacket : UartPacket_t
  g_eTxStatus : UartStatus_t
  /-- Bit `TXEIE` of `USART2->CR1`. -/
  TXEIE : Bool
  /-- The bytes written to `USART2->TDR`, oldest first. -/
  USART2_TDR : List Nat
  /-- The data register of the CRC unit. -/
  CRC_DR : Nat
  deriving DecidableEq

/-- `static void send_next_char(void)`. -/
def send_next_char (s : State) : State :=
  if s.g_sUartPacket.m_u8TxIdx < UART_MSG_SIZE then
    { s with
      USART2_TDR := s.USART2_TDR ++
        [(s.g_sUartPacket.m_acRawBuffer.getD s.g_sUartPacket.m_u8TxIdx 0) % 256]
      g_sUartPacket :=
        { s.g_sUartPacket with m_u8TxIdx := (s.g_sUartPacket.m_u8TxIdx + 1) % 256 } }
  else
    { s with TXEIE := false, g_eTxStatus := TX_IS_FREE }

/-- `static void send_data(uint16_t current, uint16_t voltage)`.  The two
fields are assigned the literals of the source; the parameters are not read. -/
def send_data (s : State) (current voltage : Nat) : State :=
  if s.g_eTxStatus = TX_IS_FREE then
    let s1 := { s with g_eTxStatus := TX_IN_PROGRESS }
    let p1 := { s1.g_sUartPacket with m_u8StartByte := 0xA5 }
    let p2 := { p1 with m_u8TxIdx := 0 }
    let p3 := { p2 with m_u16Current := 0x0102 }
    let p4 := { p3 with m_u16Voltage := 0x0304 }
    let r := crc_calculate s1.CRC_DR p4.m_acRawBuffer UART_MSG_SIZE_WO_CRC
    let p5 := { p4 with m_u8CRC := r.2 }
    let s2 := { s1 with g_sUartPacket := p5, CRC_DR := r.1 }
    let s3 := send_next_char s2
    { s3 with TXEIE := true }
  else
    s

/-! ## Interrupt handlers and main loop -/

/-- `void DMA1_Channel1_IRQHandler(void)`; `tcif` is `DMA1->ISR & DMA_ISR_TCIF1`. -/
def DMA1_Channel1_IRQHandler (tcif : Bool) (s : State) : State :=
  if tcif then { s with g_u8AdcRdyFlag := 1 } else s

/-- `void USART2_IRQHandler(void)`; `txe` is `USART2->ISR & USART_ISR_TXE`. -/
def USART2_IRQHandler (txe : Bool) (s : State) : State :=
  if txe then send_next_char s else s

/-- The body of `while (1)` in `main`, after `__WFI()` returns.  `adc0` and
`adc1` are the contents of `g_au16adcBuffer[0]` and `g_au16adcBuffer[1]`, which
the DMA writes, at the time they are read. -/
def main_loop_body (cfg : AppCfg) (adc0 adc1 : Nat) (s : State) : State :=
  if s.g_u8AdcRdyFlag ≠ 0 then
    let s1 := { s with g_u8AdcRdyFlag := 0 }
    if cfg.CFG_SEND_RAW_DATA then
      send_data s1 adc0 adc1
    else
      send_data s1 (adc_to_current_microamp cfg adc0) (adc_to_voltage_millivolt cfg adc1)
  else
    s

/-- The state in which `main` enters its loop: the globals have their static
initial values, `usart2_init` has left `TXEIE` clear, nothing has been written
to `USART2->TDR`; `dr` is the content of `CRC->DR` left by `crc_init`. -/
def main_init (dr : Nat) : State :=
  { g_u8AdcRdyFlag := 0
    g_sUartPacket :=
      { m_u8StartByte := 0, m_u16Voltage := 0, m_u16Current := 0, m_u8CRC := 0, m_u8TxIdx := 0 }
    g_eTxStatus := TX_IS_FREE
    TXEIE := false
    USART2_TDR := []
    CRC_DR := dr }

/-- The events that drive the pipeline once `main` is in its loop. -/
inductive Event where
  /-- The DMA channel 1 interrupt. -/
  | dma (tcif : Bool)
  /-- One pass of the main loop, with the sample values it reads. -/
  | main (adc0 adc1 : Nat)
  /-- The transmit data register has become empty. -/
  | txe
  deriving DecidableEq

/-- One event.  The USART raises its interrupt for `TXE` only while `TXEIE` is
set, so `USART2_IRQHandler` runs only then. -/
def step (cfg : AppCfg) (s : State) : Event → State
  | .dma tcif => DMA1_Channel1_IRQHandler tcif s
  | .main adc0 adc1 => main_loop_body cfg adc0 adc1 s
  | .txe => if s.TXEIE then USART2_IRQHandler true s else s

/-- A finite sequence of events, in order. -/
def run (cfg : AppCfg) (s : State) : List Event → State
  | [] => s
  | e :: es => run cfg (step cfg s e) es

/-- The handler `USART2_IRQHandler`, with `TXE` set, `n` times in a row. -/
def byte_ready (n : Nat) (s : State) : State :=
  (USART2_IRQHandler true)^[n] s

/-- Byte-ready interrupts until the engine is idle, at most `fuel` of them. -/
def drain : Nat → State → State
  | 0, s => s
  | fuel + 1, s =>
    if s.g_eTxStatus = TX_IS_FREE then s else drain fuel (USART2_IRQHandler true s)

/-- One complete send cycle: `send_data`, then byte-ready interrupts until the
engine is idle. -/
def send_cycle (fuel : Nat) (s : State) (current voltage : Nat) : State :=
  drain fuel (send_data s current voltage)

/-! ## Definitions used to state the properties -/

/-- The current conversion as the two-stage truncating formula over unbounded
naturals: `mv = floor(c * 3300 / 4095)`, then
`floor(mv * 1000 / (CURRENT_AMP_GAIN * CURRENT_AMP_SHUNT))`. -/
def current_microamp_exact (cfg : AppCfg) (c : Nat) : Nat :=
  (c * 3300 / 4095) * 1000 / (cfg.CURRENT_AMP_GAIN * cfg.CURRENT_AMP_SHUNT)

/-- The voltage conversion as the two-stage truncating formula over unbounded
naturals: `mv = floor(c * 3300 / 4095)`, then
`floor(mv * VOLTAGE_AMP_INV_RATIO / VOLTAGE_AMP_GAIN)`. -/
def voltage_millivolt_exact (cfg : AppCfg) (c : Nat) : Nat :=
  (c * 3300 / 4095) * cfg.VOLTAGE_AMP_INV_RATIO / cfg.VOLTAGE_AMP_GAIN

/-- A configuration with an amplifier gain of 50 and a shunt of 1. -/
def cfg_gain50 : AppCfg :=
  { CFG_SEND_RAW_DATA := false
    CURRENT_AMP_GAIN := 50
    CURRENT_AMP_SHUNT := 1
    VOLTAGE_AMP_INV_RATIO := 2
    VOLTAGE_AMP_GAIN := 1
    current_divisor_pos := by decide
    voltage_divisor_pos := by decide }

/-- A configuration with an amplifier gain of 50 and a shunt of 100. -/
def cfg_shunt100 : AppCfg :=
  { CFG_SEND_RAW_DATA := false
    CURRENT_AMP_GAIN := 50
    CURRENT_AMP_SHUNT := 100
    VOLTAGE_AMP_INV_RATIO := 2
    VOLTAGE_AMP_GAIN := 1
    current_divisor_pos := by decide
    voltage_divisor_pos := by decide }

/-- The span `data` with bit `k` of the byte at index `i` inverted. -/
def flip_bit (data : List Nat) (i k : Nat) : List Nat :=
  data.set i (data.getD i 0 ^^^ 2 ^ k)

/-- The bit step of the CRC unit, undone. -/
def crc_unshift (c : Nat) : Nat :=
  if c % 2 = 1 then (c ^^^ CRC_POL) / 2 + 128 else c / 2

/-- A complete frame: `UART_MSG_SIZE` bytes, the start marker first, the
checksum of the bytes before it last. -/
def ValidFrame (f : List Nat) : Prop :=
  f.length = UART_MSG_SIZE ∧ f.getD 0 0 = 0xA5 ∧
    f.getD (UART_MSG_SIZE - 1) 0 = (crc_calculate 0 f (UART_MSG_SIZE - 1)).2

instance (f : List Nat) : Decidable (ValidFrame f) := by
  unfold ValidFrame
  infer_instance

/-- A byte stream made of complete frames, followed by the first `k` bytes of
one further frame, with `k` less than the frame size. -/
def Framed (out : List Nat) : Prop :=
  ∃ frames : List (List Nat), ∃ g : List Nat, ∃ k : Nat,
    (∀ f ∈ frames, ValidFrame f) ∧ ValidFrame g ∧ k < UART_MSG_SIZE ∧
      out = frames.flatten ++ g.take k

/-- The invariant of the transmission engine: the cursor is in range; when the
engine is idle the byte-ready interrupt is disabled and only complete frames
have been written; when it is sending, the packet is a complete frame whose
bytes before the cursor are the ones written after the complete frames. -/
def Inv (s : State) : Prop :=
  s.g_sUartPacket.m_u8TxIdx ≤ UART_MSG_SIZE ∧
  (s.g_eTxStatus = TX_IS_FREE →
    s.TXEIE = false ∧
    ∃ frames : List (List Nat), (∀ f ∈ frames, ValidFrame f) ∧
      s.USART2_TDR = frames.flatten) ∧
  (s.g_eTxStatus = TX_IN_PROGRESS →
    1 ≤ s.g_sUartPacket.m_u8TxIdx ∧ ValidFrame s.g_sUartPacket.m_acRawBuffer ∧
    ∃ frames : List (List Nat), (∀ f ∈ frames, ValidFrame f) ∧
      s.USART2_TDR = frames.flatten ++
        s.g_sUartPacket.m_acRawBuffer.take s.g_sUartPacket.m_u8TxIdx)

/-! ## Checksum engine: basic facts -/

theorem crc_calculate_reseeds (dr dr' : Nat) (data : List Nat) (length : Nat) :
    crc_calculate dr data length = crc_calculate dr' data length := rfl

theorem crc_calculate_five (dr dr' a b c d e f f' : Nat) :
    crc_calculate dr [a, b, c, d, e, f] UART_MSG_SIZE_WO_CRC
      = crc_calculate dr' [a, b, c, d, e, f'] UART_MSG_SIZE_WO_CRC := by
  simp [crc_calculate, UART_MSG_SIZE_WO_CRC, UART_MSG_SIZE, List.range, List.range.loop]

theorem crc_calculate_frame (dr x : Nat) :
    crc_calculate dr [0xA5 % 256, 0x0304 % 256, 0x0304 / 256 % 256, 0x0102 % 256,
      0x0102 / 256 % 256, x] UART_MSG_SIZE_WO_CRC = (0xD6, 0xD6) := by
  rw [crc_calculate_five dr 0 _ _ _ _ _ x 0]
  decide

/-! ## Transmission engine: single operations -/

theorem send_data_idle_eq (s : State) (current voltage : Nat)
    (h : s.g_eTxStatus = TX_IS_FREE) :
    send_data s current voltage =
      ⟨s.g_u8AdcRdyFlag, ⟨0xA5, 0x0304, 0x0102, 0xD6, 1⟩, TX_IN_PROGRESS, true,
        s.USART2_TDR ++ [0xA5], 0xD6⟩ := by
  unfold send_data
  rw [if_pos h]
  dsimp only [UartPacket_t.m_acRawBuffer]
  rw [crc_calculate_frame]
  unfold send_next_char
  dsimp only
  rw [if_pos (show 0 < UART_MSG_SIZE by decide)]
  rfl

theorem send_data_busy_eq (s : State) (current voltage : Nat)
    (h : s.g_eTxStatus ≠ TX_IS_FREE) : send_data s current voltage = s := by
  unfold send_data
  rw [if_neg h]

theorem send_data_idle_facts (s : State) (current voltage : Nat)
    (h : s.g_eTxStatus = TX_IS_FREE) :
    (send_data s current voltage).g_sUartPacket.m_acRawBuffer = [0xA5, 0x04, 0x03, 0x02, 0x01, 0xD6] ∧
    (send_data s current voltage).g_sUartPacket.m_u8TxIdx = 1 ∧
    (send_data s current voltage).g_eTxStatus = TX_IN_PROGRESS ∧
    (send_data s current voltage).TXEIE = true ∧
    (send_data s current voltage).USART2_TDR = s.USART2_TDR ++ [0xA5] ∧
    (send_data s current voltage).g_u8AdcRdyFlag = s.g_u8AdcRdyFlag := by
  rw [send_data_idle_eq s current voltage h]
  exact ⟨show UartPacket_t.m_acRawBuffer ⟨0xA5, 0x0304, 0x0102, 0xD6, 1⟩ = _ from by decide,
    rfl, rfl, rfl, rfl, rfl⟩

theorem sent_frame_valid : ValidFrame [0xA5, 0x04, 0x03, 0x02, 0x01, 0xD6] := by
  decide

theorem raw_length (p : UartPacket_t) : p.m_acRawBuffer.length = UART_MSG_SIZE := rfl

theorem raw_getD_mod (p : UartPacket_t) (i : Nat) :
    p.m_acRawBuffer.getD i 0 % 256 = p.m_acRawBuffer.getD i 0 := by
  rcases i with _ | _ | _ | _ | _ | _ | i <;> simp [UartPacket_t.m_acRawBuffer]

theorem send_next_char_lt (s : State) (h : s.g_sUartPacket.m_u8TxIdx < UART_MSG_SIZE) :
    send_next_char s =
      ⟨s.g_u8AdcRdyFlag,
        ⟨s.g_sUartPacket.m_u8StartByte, s.g_sUartPacket.m_u16Voltage,
          s.g_sUartPacket.m_u16Current, s.g_sUartPacket.m_u8CRC,
          s.g_sUartPacket.m_u8TxIdx + 1⟩,
        s.g_eTxStatus, s.TXEIE,
        s.USART2_TDR ++ [s.g_sUartPacket.m_acRawBuffer.getD s.g_sUartPacket.m_u8TxIdx 0],
        s.CRC_DR⟩ := by
  have hmod : (s.g_sUartPacket.m_u8TxIdx + 1) % 256 = s.g_sUartPacket.m_u8TxIdx + 1 := by
    simp only [UART_MSG_SIZE] at h
    omega
  unfold send_next_char
  rw [if_pos h, raw_getD_mod, hmod]

theorem send_next_char_ge (s : State) (h : UART_MSG_SIZE ≤ s.g_sUartPacket.m_u8TxIdx) :
    send_next_char s =
      ⟨s.g_u8AdcRdyFlag, s.g_sUartPacket, TX_IS_FREE, false, s.USART2_TDR, s.CRC_DR⟩ := by
  unfold send_next_char
  rw [if_neg (by omega)]

theorem byte_ready_succ (k : Nat) (s : State) :
    byte_ready (k + 1) s = byte_ready k (send_next_char s) := rfl

theorem byte_ready_succ_last (k : Nat) (s : State) :
    byte_ready (k + 1) s = send_next_char (byte_ready k s) := by
  simp only [byte_ready, Function.iterate_succ_apply']
  rfl

theorem byte_ready_lt (k : Nat) (s : State)
    (h : s.g_sUartPacket.m_u8TxIdx + k ≤ UART_MSG_SIZE) :
    byte_ready k s =
      ⟨s.g_u8AdcRdyFlag,
        ⟨s.g_sUartPacket.m_u8StartByte, s.g_sUartPacket.m_u16Voltage,
          s.g_sUartPacket.m_u16Current, s.g_sUartPacket.m_u8CRC,
          s.g_sUartPacket.m_u8TxIdx + k⟩,
        s.g_eTxStatus, s.TXEIE,
        s.USART2_TDR ++ (s.g_sUartPacket.m_acRawBuffer.drop s.g_sUartPacket.m_u8TxIdx).take k,
        s.CRC_DR⟩ := by
  induction k generalizing s with
  | zero => simp [byte_ready]
  | succ k ih =>
    have hlt : s.g_sUartPacket.m_u8TxIdx < UART_MSG_SIZE := by omega
    have hlen : s.g_sUartPacket.m_u8TxIdx < s.g_sUartPacket.m_acRawBuffer.length := by
      rw [raw_length]
      exact hlt
    rw [byte_ready_succ, send_next_char_lt s hlt, ih _ (by dsimp only; omega)]
    dsimp only
    have hraw : ∀ a b c d i j, UartPacket_t.m_acRawBuffer ⟨a, b, c, d, i⟩
        = UartPacket_t.m_acRawBuffer ⟨a, b, c, d, j⟩ := fun _ _ _ _ _ _ => rfl
    rw [hraw _ _ _ _ _ s.g_sUartPacket.m_u8TxIdx]
    have hp : (⟨s.g_sUartPacket.m_u8StartByte, s.g_sUartPacket.m_u16Voltage,
          s.g_sUartPacket.m_u16Current, s.g_sUartPacket.m_u8CRC,
          s.g_sUartPacket.m_u8TxIdx⟩ : UartPacket_t) = s.g_sUartPacket := rfl
    rw [hp, List.append_assoc, Nat.add_assoc, Nat.add_comm 1 k]
    congr 2
    rw [List.drop_eq_getElem_cons hlen, List.take_succ_cons, List.getD_eq_getElem _ _ hlen]
    rfl

theorem byte_ready_after_send_data (s : State) (current voltage : Nat)
    (h : s.g_eTxStatus = TX_IS_FREE) (k : Nat) (hk : k < UART_MSG_SIZE) :
    (byte_ready k (send_data s current voltage)).USART2_TDR
        = s.USART2_TDR ++ [0xA5, 0x04, 0x03, 0x02, 0x01, 0xD6].take (k + 1) ∧
    (byte_ready k (send_data s current voltage)).g_eTxStatus = TX_IN_PROGRESS ∧
    (byte_ready k (send_data s current voltage)).TXEIE = true ∧
    (byte_ready k (send_data s current voltage)).g_sUartPacket.m_u8TxIdx = k + 1 ∧
    (byte_ready k (send_data s current voltage)).g_sUartPacket.m_acRawBuffer
        = [0xA5, 0x04, 0x03, 0x02, 0x01, 0xD6] ∧
    (byte_ready k (send_data s current voltage)).g_u8AdcRdyFlag = s.g_u8AdcRdyFlag := by
  obtain ⟨hraw, hidx, hst, hen, hout, hflag⟩ := send_data_idle_facts s current voltage h
  rw [byte_ready_lt k _ (by rw [hidx]; omega)]
  dsimp only
  rw [hraw, hidx, hst, hen, hout, hflag, List.append_assoc]
  refine ⟨?_, rfl, rfl, Nat.add_comm 1 k, hraw, rfl⟩
  simp

theorem byte_ready_all_after_send_data (s : State) (current voltage : Nat)
    (h : s.g_eTxStatus = TX_IS_FREE) :
    (byte_ready UART_MSG_SIZE (send_data s current voltage)).USART2_TDR
        = s.USART2_TDR ++ [0xA5, 0x04, 0x03, 0x02, 0x01, 0xD6] ∧
    (byte_ready UART_MSG_SIZE (send_data s current voltage)).g_eTxStatus = TX_IS_FREE ∧
    (byte_ready UART_MSG_SIZE (send_data s current voltage)).TXEIE = false ∧
    (byte_ready UART_MSG_SIZE (send_data s current voltage)).g_sUartPacket.m_u8TxIdx
        = UART_MSG_SIZE ∧
    (byte_ready UART_MSG_SIZE (send_data s current voltage)).g_sUartPacket.m_acRawBuffer
        = [0xA5, 0x04, 0x03, 0x02, 0x01, 0xD6] ∧
    (byte_ready UART_MSG_SIZE (send_data s current voltage)).g_u8AdcRdyFlag
        = s.g_u8AdcRdyFlag := by
  obtain ⟨hout, -, -, hidx, hraw, hflag⟩ :=
    byte_ready_after_send_data s current voltage h 5 (by decide)
  have h6 : UART_MSG_SIZE = 5 + 1 := rfl
  rw [h6, byte_ready_succ_last, send_next_char_ge _ (by rw [hidx]; decide)]
  dsimp only
  exact ⟨hout, rfl, rfl, hidx, hraw, hflag⟩

theorem drain_idle (fuel : Nat) (s : State) (h : s.g_eTxStatus = TX_IS_FREE) :
    drain fuel s = s := by
  cases fuel with
  | zero => rfl
  | succ n =>
    unfold drain
    rw [if_pos h]

theorem drain_busy (fuel : Nat) (s : State) (h : s.g_eTxStatus = TX_IN_PROGRESS) :
    drain (fuel + 1) s = drain fuel (USART2_IRQHandler true s) := by
  conv_lhs => unfold drain
  rw [if_neg (by rw [h]; decide)]

theorem send_cycle_eq (fuel : Nat) (s : State) (current voltage : Nat)
    (h : s.g_eTxStatus = TX_IS_FREE) (hfuel : UART_MSG_SIZE ≤ fuel) :
    send_cycle fuel s current voltage
      = byte_ready UART_MSG_SIZE (send_data s current voltage) := by
  obtain ⟨n, rfl⟩ : ∃ n, fuel = n + 6 :=
    ⟨fuel - 6, by simp only [UART_MSG_SIZE] at hfuel; omega⟩
  have hstep : ∀ k, k < UART_MSG_SIZE → ∀ m,
      drain (m + 1) (byte_ready k (send_data s current voltage))
        = drain m (byte_ready (k + 1) (send_data s current voltage)) := by
    intro k hk m
    rw [drain_busy _ _ (byte_ready_after_send_data s current voltage h k hk).2.1,
      byte_ready_succ_last]
    rfl
  have h0 : send_data s current voltage = byte_ready 0 (send_data s current voltage) := rfl
  unfold send_cycle
  conv_lhs => rw [h0]
  rw [hstep 0 (by decide), hstep 1 (by decide), hstep 2 (by decide), hstep 3 (by decide),
    hstep 4 (by decide), hstep 5 (by decide), show (5 + 1 : Nat) = UART_MSG_SIZE from rfl]
  rw [drain_idle _ _ (byte_ready_all_after_send_data s current voltage h).2.1]

/-! ## Transmission engine: the properties of `send_data` and `send_next_char` -/

/-- Claim C1, evaluated on the code: `send_data(0x0234, 0x0567)` in the initial
idle state leaves the literals of the source in the packet, bytes `04 03` at
offsets 1-2 and `02 01` at offsets 3-4, and not the little-endian bytes
`67 05` of the voltage `0x0567` and `34 02` of the current `0x0234` that were
passed in. -/
theorem send_data_ignores_arguments :
    (send_data (main_init 0) 0x0234 0x0567).g_sUartPacket.m_acRawBuffer
      = [0xA5, 0x04, 0x03, 0x02, 0x01, 0xD6] ∧
    (send_data (main_init 0) 0x0234 0x0567).g_sUartPacket.m_acRawBuffer.getD 1 0
      ≠ 0x0567 % 256 ∧
    (send_data (main_init 0) 0x0234 0x0567).g_sUartPacket.m_acRawBuffer.getD 2 0
      ≠ 0x0567 / 256 ∧
    (send_data (main_init 0) 0x0234 0x0567).g_sUartPacket.m_acRawBuffer.getD 3 0
      ≠ 0x0234 % 256 ∧
    (send_data (main_init 0) 0x0234 0x0567).g_sUartPacket.m_acRawBuffer.getD 4 0
      ≠ 0x0234 / 256 := by
  decide

/-- Claim C2: for every pair of inputs, `send_data` in an idle state builds a
frame of `UART_MSG_SIZE = 6` bytes whose byte 0 is `0xA5` and whose byte 5 is
`crc_calculate` of the first `UART_MSG_SIZE - 1 = 5` bytes of that same frame,
whatever the CRC data register held before. -/
theorem send_data_builds_frame (s : State) (current voltage dr : Nat)
    (h : s.g_eTxStatus = TX_IS_FREE) :
    (send_data s current voltage).g_sUartPacket.m_acRawBuffer.length = UART_MSG_SIZE ∧
    UART_MSG_SIZE = 6 ∧ UART_MSG_SIZE_WO_CRC = 5 ∧
    (send_data s current voltage).g_sUartPacket.m_acRawBuffer.getD 0 0 = 0xA5 ∧
    (send_data s current voltage).g_sUartPacket.m_acRawBuffer.getD 5 0
      = (crc_calculate dr (send_data s current voltage).g_sUartPacket.m_acRawBuffer
          UART_MSG_SIZE_WO_CRC).2 := by
  rw [(send_data_idle_facts s current voltage h).1, crc_calculate_reseeds dr 0]
  decide

/-- Witness of `send_data_builds_frame` in the initial state. -/
theorem send_data_builds_frame_witness :
    (main_init 0).g_eTxStatus = TX_IS_FREE ∧
    ((send_data (main_init 0) 0x100 0x200).g_sUartPacket.m_acRawBuffer.length = UART_MSG_SIZE ∧
    UART_MSG_SIZE = 6 ∧ UART_MSG_SIZE_WO_CRC = 5 ∧
    (send_data (main_init 0) 0x100 0x200).g_sUartPacket.m_acRawBuffer.getD 0 0 = 0xA5 ∧
    (send_data (main_init 0) 0x100 0x200).g_sUartPacket.m_acRawBuffer.getD 5 0
      = (crc_calculate 7 (send_data (main_init 0) 0x100 0x200).g_sUartPacket.m_acRawBuffer
          UART_MSG_SIZE_WO_CRC).2) :=
  ⟨rfl, send_data_builds_frame (main_init 0) 0x100 0x200 7 rfl⟩

/-- Claim C3: in every state whose status is not `TX_IS_FREE`, and for every
pair of inputs, `send_data` changes nothing: status, packet, cursor, `TXEIE`,
the bytes written to `USART2->TDR` and every other part of the state are the
same. -/
theorem send_data_busy_noop (s : State) (current voltage : Nat)
    (h : s.g_eTxStatus ≠ TX_IS_FREE) : send_data s current voltage = s :=
  send_data_busy_eq s current voltage h

/-- Witness of `send_data_busy_noop`: a second `send_data` right after a first. -/
theorem send_data_busy_noop_witness :
    (send_data (main_init 0) 1 2).g_eTxStatus ≠ TX_IS_FREE ∧
    send_data (send_data (main_init 0) 1 2) 3 4 = send_data (main_init 0) 1 2 :=
  ⟨by decide, send_data_busy_noop (send_data (main_init 0) 1 2) 3 4 (by decide)⟩

/-- Claim C4: from any idle state, `send_data` writes byte 0 of the packet to
`USART2->TDR`; each of the next `UART_MSG_SIZE - 1` byte-ready interrupts
writes the next byte, the engine staying in progress and the packet unchanged;
after `UART_MSG_SIZE` byte-ready interrupts exactly the `UART_MSG_SIZE` bytes of
the packet have been written, in index order, the engine is idle and `TXEIE` is
clear. -/
theorem send_data_then_byte_ready (s : State) (current voltage : Nat)
    (h : s.g_eTxStatus = TX_IS_FREE) :
    (send_data s current voltage).USART2_TDR = s.USART2_TDR ++
      (send_data s current voltage).g_sUartPacket.m_acRawBuffer.take 1 ∧
    (∀ k, k < UART_MSG_SIZE →
      (byte_ready k (send_data s current voltage)).USART2_TDR = s.USART2_TDR ++
        (send_data s current voltage).g_sUartPacket.m_acRawBuffer.take (k + 1) ∧
      (byte_ready k (send_data s current voltage)).g_eTxStatus = TX_IN_PROGRESS ∧
      (byte_ready k (send_data s current voltage)).g_sUartPacket.m_acRawBuffer
        = (send_data s current voltage).g_sUartPacket.m_acRawBuffer) ∧
    (byte_ready UART_MSG_SIZE (send_data s current voltage)).USART2_TDR = s.USART2_TDR ++
      (send_data s current voltage).g_sUartPacket.m_acRawBuffer ∧
    (send_data s current voltage).g_sUartPacket.m_acRawBuffer.length = UART_MSG_SIZE ∧
    (byte_ready UART_MSG_SIZE (send_data s current voltage)).g_eTxStatus = TX_IS_FREE ∧
    (byte_ready UART_MSG_SIZE (send_data s current voltage)).TXEIE = false := by
  obtain ⟨hraw, -, -, -, hout, -⟩ := send_data_idle_facts s current voltage h
  obtain ⟨hall, hfree, hoff, -, -, -⟩ := byte_ready_all_after_send_data s current voltage h
  rw [hraw]
  refine ⟨hout, fun k hk => ?_, hall, rfl, hfree, hoff⟩
  obtain ⟨h1, h2, -, -, h3, -⟩ := byte_ready_after_send_data s current voltage h k hk
  exact ⟨h1, h2, h3⟩

/-- Witness of `send_data_then_byte_ready` in the initial state. -/
theorem send_data_then_byte_ready_witness :
    (main_init 0).g_eTxStatus = TX_IS_FREE ∧
    (byte_ready UART_MSG_SIZE (send_data (main_init 0) 0x100 0x200)).USART2_TDR
      = (main_init 0).USART2_TDR ++
        (send_data (main_init 0) 0x100 0x200).g_sUartPacket.m_acRawBuffer ∧
    (byte_ready UART_MSG_SIZE (send_data (main_init 0) 0x100 0x200)).g_eTxStatus
      = TX_IS_FREE :=
  ⟨rfl, (send_data_then_byte_ready (main_init 0) 0x100 0x200 rfl).2.2.1,
    (send_data_then_byte_ready (main_init 0) 0x100 0x200 rfl).2.2.2.2.1⟩

/-- Claim C5 as stated fails: after `send_data` and four byte-ready interrupts
the engine is sending with the cursor at `UART_MSG_SIZE - 1`; the byte-ready
step `send_next_char` advances the cursor to `UART_MSG_SIZE` and leaves the
status `TX_IN_PROGRESS` and `TXEIE` set. -/
theorem cursor_at_end_still_sending :
    (byte_ready 4 (send_data (main_init 0) 0 0)).g_eTxStatus = TX_IN_PROGRESS ∧
    (byte_ready 4 (send_data (main_init 0) 0 0)).g_sUartPacket.m_u8TxIdx + 1
      = UART_MSG_SIZE ∧
    (send_next_char (byte_ready 4 (send_data (main_init 0) 0 0))).g_sUartPacket.m_u8TxIdx
      = UART_MSG_SIZE ∧
    ¬ ((send_next_char (byte_ready 4 (send_data (main_init 0) 0 0))).g_eTxStatus
          = TX_IS_FREE ∧
       (send_next_char (byte_ready 4 (send_data (main_init 0) 0 0))).TXEIE = false) := by
  decide

/-- Claim C5, amended: the byte-ready step taken once the cursor has reached
`UART_MSG_SIZE` leaves the status `TX_IS_FREE` and `TXEIE` clear, writes no
byte and leaves packet and cursor as they are; the step that advances the
cursor to `UART_MSG_SIZE` leaves status and `TXEIE` as they are. -/
theorem send_next_char_at_end (s : State) :
    (UART_MSG_SIZE ≤ s.g_sUartPacket.m_u8TxIdx →
      (send_next_char s).g_eTxStatus = TX_IS_FREE ∧
      (send_next_char s).TXEIE = false ∧
      (send_next_char s).USART2_TDR = s.USART2_TDR ∧
      (send_next_char s).g_sUartPacket = s.g_sUartPacket) ∧
    (s.g_sUartPacket.m_u8TxIdx + 1 = UART_MSG_SIZE →
      (send_next_char s).g_sUartPacket.m_u8TxIdx = UART_MSG_SIZE ∧
      (send_next_char s).g_eTxStatus = s.g_eTxStatus ∧
      (send_next_char s).TXEIE = s.TXEIE) := by
  constructor
  · intro h
    rw [send_next_char_ge s h]
    exact ⟨rfl, rfl, rfl, rfl⟩
  · intro h
    rw [send_next_char_lt s (by omega)]
    exact ⟨h, rfl, rfl⟩

/-- Witness of `send_next_char_at_end`: the states after `send_data` and five,
respectively four, byte-ready interrupts, in which the cursor is
`UART_MSG_SIZE`, respectively `UART_MSG_SIZE - 1`. -/
theorem send_next_char_at_end_witness :
    UART_MSG_SIZE ≤ (byte_ready 5 (send_data (main_init 0) 0 0)).g_sUartPacket.m_u8TxIdx ∧
    (send_next_char (byte_ready 5 (send_data (main_init 0) 0 0))).g_eTxStatus = TX_IS_FREE ∧
    (send_next_char (byte_ready 5 (send_data (main_init 0) 0 0))).TXEIE = false ∧
    (byte_ready 4 (send_data (main_init 0) 0 0)).g_sUartPacket.m_u8TxIdx + 1
      = UART_MSG_SIZE ∧
    (send_next_char (byte_ready 4 (send_data (main_init 0) 0 0))).g_sUartPacket.m_u8TxIdx
      = UART_MSG_SIZE :=
  ⟨by decide,
    ((send_next_char_at_end (byte_ready 5 (send_data (main_init 0) 0 0))).1 (by decide)).1,
    ((send_next_char_at_end (byte_ready 5 (send_data (main_init 0) 0 0))).1 (by decide)).2.1,
    by decide,
    ((send_next_char_at_end (byte_ready 4 (send_data (main_init 0) 0 0))).2 (by decide)).1⟩

/-- Claim C9: two consecutive complete send cycles from an idle state, each
`send_data` followed by byte-ready interrupts until the engine is idle again,
end idle and write the same `UART_MSG_SIZE` bytes; the first cycle leaves the
cursor at `UART_MSG_SIZE` and the second start resets it, so that its first
byte is byte 0 of the packet; and the result of `crc_calculate` does not depend
on what the CRC data register held before the call. -/
theorem send_twice_identical (s : State) (current voltage fuel1 fuel2 : Nat)
    (h : s.g_eTxStatus = TX_IS_FREE)
    (h1 : UART_MSG_SIZE ≤ fuel1) (h2 : UART_MSG_SIZE ≤ fuel2) :
    (send_cycle fuel1 s current voltage).g_eTxStatus = TX_IS_FREE ∧
    (send_cycle fuel2 (send_cycle fuel1 s current voltage) current voltage).g_eTxStatus
      = TX_IS_FREE ∧
    (∃ out : List Nat, out.length = UART_MSG_SIZE ∧
      (send_cycle fuel1 s current voltage).USART2_TDR = s.USART2_TDR ++ out ∧
      (send_cycle fuel2 (send_cycle fuel1 s current voltage) current voltage).USART2_TDR
        = (send_cycle fuel1 s current voltage).USART2_TDR ++ out) ∧
    (send_cycle fuel1 s current voltage).g_sUartPacket.m_u8TxIdx = UART_MSG_SIZE ∧
    (send_data (send_cycle fuel1 s current voltage) current voltage).g_sUartPacket.m_u8TxIdx
      = 1 ∧
    (send_data (send_cycle fuel1 s current voltage) current voltage).USART2_TDR
      = (send_cycle fuel1 s current voltage).USART2_TDR ++
        (send_data (send_cycle fuel1 s current voltage)
          current voltage).g_sUartPacket.m_acRawBuffer.take 1 ∧
    (∀ dr dr' data length,
      crc_calculate dr data length = crc_calculate dr' data length) := by
  have hc1 := send_cycle_eq fuel1 s current voltage h h1
  obtain ⟨hout1, hfree1, -, hidx1, -, -⟩ := byte_ready_all_after_send_data s current voltage h
  rw [← hc1] at hout1 hfree1 hidx1
  have hc2 := send_cycle_eq fuel2 _ current voltage hfree1 h2
  obtain ⟨hout2, hfree2, -, -, -, -⟩ :=
    byte_ready_all_after_send_data (send_cycle fuel1 s current voltage) current voltage hfree1
  rw [← hc2] at hout2 hfree2
  obtain ⟨hraw, hidx, -, -, hout, -⟩ :=
    send_data_idle_facts (send_cycle fuel1 s current voltage) current voltage hfree1
  refine ⟨hfree1, hfree2, ⟨_, ?_, hout1, hout2⟩, hidx1, hidx, ?_,
    fun dr dr' data length => crc_calculate_reseeds dr dr' data length⟩
  · rfl
  · rw [hout, hraw]
    rfl

/-- Witness of `send_twice_identical` in the initial state. -/
theorem send_twice_identical_witness :
    (main_init 0).g_eTxStatus = TX_IS_FREE ∧ UART_MSG_SIZE ≤ 6 ∧ UART_MSG_SIZE ≤ 8 ∧
    ∃ out : List Nat, out.length = UART_MSG_SIZE ∧
      (send_cycle 6 (main_init 0) 0x100 0x200).USART2_TDR = (main_init 0).USART2_TDR ++ out ∧
      (send_cycle 8 (send_cycle 6 (main_init 0) 0x100 0x200) 0x100 0x200).USART2_TDR
        = (send_cycle 6 (main_init 0) 0x100 0x200).USART2_TDR ++ out :=
  ⟨rfl, by decide, by decide,
    (send_twice_identical (main_init 0) 0x100 0x200 6 8 rfl (by decide) (by decide)).2.2.1⟩

/-! ## Unit converter -/

theorem ADC_LSB_TO_MV_exact (c : Nat) (hc : c ≤ 0xFFF) :
    _ADC_LSB_TO_MV c = c * 3300 / 4095 ∧ _ADC_LSB_TO_MV c ≤ 3300 := by
  unfold _ADC_LSB_TO_MV ADC_REF_MV ADC_REF_LSB
  have h : c * 3300 % 2 ^ 32 = c * 3300 := Nat.mod_eq_of_lt (by omega)
  rw [h]
  omega

theorem current_exact_of_fits (cfg : AppCfg) (c : Nat) (hc : c ≤ 0xFFF)
    (hD : cfg.CURRENT_AMP_GAIN * cfg.CURRENT_AMP_SHUNT < 2 ^ 32)
    (hI : ADC_REF_MV * CURRENT_UA_MA_FACTOR
      / (cfg.CURRENT_AMP_GAIN * cfg.CURRENT_AMP_SHUNT) < 2 ^ 16) :
    adc_to_current_microamp cfg c = current_microamp_exact cfg c := by
  obtain ⟨hmv, hle⟩ := ADC_LSB_TO_MV_exact c hc
  unfold adc_to_current_microamp _CURRENT_MV_TO_UA current_microamp_exact
  unfold ADC_REF_MV CURRENT_UA_MA_FACTOR at *
  rw [hmv] at hle ⊢
  rw [Nat.mod_eq_of_lt hD, Nat.mod_eq_of_lt (a := c * 3300 / 4095 * 1000) (by omega)]
  apply Nat.mod_eq_of_lt
  refine lt_of_le_of_lt (Nat.div_le_div_right ?_) hI
  omega

theorem voltage_exact_of_fits (cfg : AppCfg) (c : Nat) (hc : c ≤ 0xFFF)
    (hG : cfg.VOLTAGE_AMP_GAIN < 2 ^ 32)
    (hR : ADC_REF_MV * cfg.VOLTAGE_AMP_INV_RATIO < 2 ^ 32)
    (hV : ADC_REF_MV * cfg.VOLTAGE_AMP_INV_RATIO / cfg.VOLTAGE_AMP_GAIN < 2 ^ 16) :
    adc_to_voltage_millivolt cfg c = voltage_millivolt_exact cfg c := by
  obtain ⟨hmv, hle⟩ := ADC_LSB_TO_MV_exact c hc
  unfold adc_to_voltage_millivolt _VOLTAGE_MV_TO_MV voltage_millivolt_exact
  unfold ADC_REF_MV at *
  rw [hmv] at hle ⊢
  have hle' : c * 3300 / 4095 * cfg.VOLTAGE_AMP_INV_RATIO
      ≤ 3300 * cfg.VOLTAGE_AMP_INV_RATIO := Nat.mul_le_mul_right _ hle
  rw [Nat.mod_eq_of_lt hG, Nat.mod_eq_of_lt (lt_of_le_of_lt hle' hR)]
  apply Nat.mod_eq_of_lt
  exact lt_of_le_of_lt (Nat.div_le_div_right hle') hV

theorem current_exact_mono (cfg : AppCfg) (c1 c2 : Nat) (h : c1 ≤ c2) :
    current_microamp_exact cfg c1 ≤ current_microamp_exact cfg c2 := by
  unfold current_microamp_exact
  apply Nat.div_le_div_right
  apply Nat.mul_le_mul_right
  apply Nat.div_le_div_right
  exact Nat.mul_le_mul_right _ h

theorem voltage_exact_mono (cfg : AppCfg) (c1 c2 : Nat) (h : c1 ≤ c2) :
    voltage_millivolt_exact cfg c1 ≤ voltage_millivolt_exact cfg c2 := by
  unfold voltage_millivolt_exact
  apply Nat.div_le_div_right
  apply Nat.mul_le_mul_right
  apply Nat.div_le_div_right
  exact Nat.mul_le_mul_right _ h

theorem conversions_zero (cfg : AppCfg) :
    adc_to_current_microamp cfg 0 = 0 ∧ adc_to_voltage_millivolt cfg 0 = 0 := by
  constructor
  · simp [adc_to_current_microamp, _CURRENT_MV_TO_UA, _ADC_LSB_TO_MV]
  · simp [adc_to_voltage_millivolt, _VOLTAGE_MV_TO_MV, _ADC_LSB_TO_MV]

/-- Claim C6 as stated fails: with an amplifier gain of 50 and a shunt of 1 the
full-scale current is 66000, which the `(uint16_t)` cast wraps to 464, below
the 64460 returned for the smaller code 4000. -/
theorem current_not_monotone_gain50 :
    (4000 : Nat) ≤ 4095 ∧ (4095 : Nat) ≤ 0xFFF ∧
    adc_to_current_microamp cfg_gain50 4000 = 64460 ∧
    adc_to_current_microamp cfg_gain50 4095 = 464 ∧
    ¬ (adc_to_current_microamp cfg_gain50 4000 ≤ adc_to_current_microamp cfg_gain50 4095) := by
  decide

/-- Claim C6, amended: when the constants keep every stage in range, that is
the divisors fit in 32 bits, `3300 * VOLTAGE_AMP_INV_RATIO` fits in 32 bits and
both full-scale results fit in 16 bits, the two conversions are monotonic
non-decreasing over the codes up to `0xFFF`. -/
theorem conversions_monotone_of_fits (cfg : AppCfg) (c1 c2 : Nat)
    (h12 : c1 ≤ c2) (h2 : c2 ≤ 0xFFF)
    (hD : cfg.CURRENT_AMP_GAIN * cfg.CURRENT_AMP_SHUNT < 2 ^ 32)
    (hI : ADC_REF_MV * CURRENT_UA_MA_FACTOR
      / (cfg.CURRENT_AMP_GAIN * cfg.CURRENT_AMP_SHUNT) < 2 ^ 16)
    (hG : cfg.VOLTAGE_AMP_GAIN < 2 ^ 32)
    (hR : ADC_REF_MV * cfg.VOLTAGE_AMP_INV_RATIO < 2 ^ 32)
    (hV : ADC_REF_MV * cfg.VOLTAGE_AMP_INV_RATIO / cfg.VOLTAGE_AMP_GAIN < 2 ^ 16) :
    adc_to_current_microamp cfg c1 ≤ adc_to_current_microamp cfg c2 ∧
    adc_to_voltage_millivolt cfg c1 ≤ adc_to_voltage_millivolt cfg c2 := by
  have h1 : c1 ≤ 0xFFF := le_trans h12 h2
  rw [current_exact_of_fits cfg c1 h1 hD hI, current_exact_of_fits cfg c2 h2 hD hI,
    voltage_exact_of_fits cfg c1 h1 hG hR hV, voltage_exact_of_fits cfg c2 h2 hG hR hV]
  exact ⟨current_exact_mono cfg c1 c2 h12, voltage_exact_mono cfg c1 c2 h12⟩

/-- Witness of `conversions_monotone_of_fits`: gain 50, shunt 100, codes
`0x100` and `0x200`. -/
theorem conversions_monotone_of_fits_witness :
    (0x100 : Nat) ≤ 0x200 ∧ (0x200 : Nat) ≤ 0xFFF ∧
    cfg_shunt100.CURRENT_AMP_GAIN * cfg_shunt100.CURRENT_AMP_SHUNT < 2 ^ 32 ∧
    ADC_REF_MV * CURRENT_UA_MA_FACTOR
      / (cfg_shunt100.CURRENT_AMP_GAIN * cfg_shunt100.CURRENT_AMP_SHUNT) < 2 ^ 16 ∧
    cfg_shunt100.VOLTAGE_AMP_GAIN < 2 ^ 32 ∧
    ADC_REF_MV * cfg_shunt100.VOLTAGE_AMP_INV_RATIO < 2 ^ 32 ∧
    ADC_REF_MV * cfg_shunt100.VOLTAGE_AMP_INV_RATIO / cfg_shunt100.VOLTAGE_AMP_GAIN < 2 ^ 16 ∧
    adc_to_current_microamp cfg_shunt100 0x100 ≤ adc_to_current_microamp cfg_shunt100 0x200 ∧
    adc_to_voltage_millivolt cfg_shunt100 0x100
      ≤ adc_to_voltage_millivolt cfg_shunt100 0x200 :=
  ⟨by decide, by decide, by decide, by decide, by decide, by decide, by decide,
    conversions_monotone_of_fits cfg_shunt100 0x100 0x200 (by decide) (by decide)
      (by decide) (by decide) (by decide) (by decide) (by decide)⟩

/-- Claim C7 as stated fails: with an amplifier gain of 50 and a shunt of 1 the
code `0xFFF` gives 66000 by the formula over unbounded naturals, and the
function returns 464: the `(uint16_t)` cast loses bits. -/
theorem current_wraps_gain50 :
    current_microamp_exact cfg_gain50 0xFFF = 66000 ∧
    adc_to_current_microamp cfg_gain50 0xFFF = 464 ∧
    adc_to_current_microamp cfg_gain50 0xFFF ≠ current_microamp_exact cfg_gain50 0xFFF := by
  decide

/-- Claim C7, amended: when the constants keep every stage in range, that is
the divisors fit in 32 bits, `3300 * VOLTAGE_AMP_INV_RATIO` fits in 32 bits and
both full-scale results fit in 16 bits, then for every code up to `0xFFF` the
conversions equal the two-stage truncating formula over unbounded naturals;
the millivolt stage is `floor(c * 3300 / 4095)` for every configuration, code 0
gives 0 and code `0xFFF` gives 3300 millivolts. -/
theorem conversions_exact_of_fits (cfg : AppCfg) (c : Nat) (hc : c ≤ 0xFFF)
    (hD : cfg.CURRENT_AMP_GAIN * cfg.CURRENT_AMP_SHUNT < 2 ^ 32)
    (hI : ADC_REF_MV * CURRENT_UA_MA_FACTOR
      / (cfg.CURRENT_AMP_GAIN * cfg.CURRENT_AMP_SHUNT) < 2 ^ 16)
    (hG : cfg.VOLTAGE_AMP_GAIN < 2 ^ 32)
    (hR : ADC_REF_MV * cfg.VOLTAGE_AMP_INV_RATIO < 2 ^ 32)
    (hV : ADC_REF_MV * cfg.VOLTAGE_AMP_INV_RATIO / cfg.VOLTAGE_AMP_GAIN < 2 ^ 16) :
    adc_to_current_microamp cfg c = current_microamp_exact cfg c ∧
    adc_to_voltage_millivolt cfg c = voltage_millivolt_exact cfg c ∧
    _ADC_LSB_TO_MV c = c * 3300 / 4095 ∧
    adc_to_current_microamp cfg 0 = 0 ∧ adc_to_voltage_millivolt cfg 0 = 0 ∧
    _ADC_LSB_TO_MV 0xFFF = 3300 :=
  ⟨current_exact_of_fits cfg c hc hD hI, voltage_exact_of_fits cfg c hc hG hR hV,
    (ADC_LSB_TO_MV_exact c hc).1, (conversions_zero cfg).1, (conversions_zero cfg).2,
    by decide⟩

/-- Witness of `conversions_exact_of_fits`: gain 50, shunt 100, code `0x100`. -/
theorem conversions_exact_of_fits_witness :
    (0x100 : Nat) ≤ 0xFFF ∧
    cfg_shunt100.CURRENT_AMP_GAIN * cfg_shunt100.CURRENT_AMP_SHUNT < 2 ^ 32 ∧
    ADC_REF_MV * CURRENT_UA_MA_FACTOR
      / (cfg_shunt100.CURRENT_AMP_GAIN * cfg_shunt100.CURRENT_AMP_SHUNT) < 2 ^ 16 ∧
    cfg_shunt100.VOLTAGE_AMP_GAIN < 2 ^ 32 ∧
    ADC_REF_MV * cfg_shunt100.VOLTAGE_AMP_INV_RATIO < 2 ^ 32 ∧
    ADC_REF_MV * cfg_shunt100.VOLTAGE_AMP_INV_RATIO / cfg_shunt100.VOLTAGE_AMP_GAIN < 2 ^ 16 ∧
    adc_to_current_microamp cfg_shunt100 0x100 = current_microamp_exact cfg_shunt100 0x100 ∧
    adc_to_voltage_millivolt cfg_shunt100 0x100
      = voltage_millivolt_exact cfg_shunt100 0x100 :=
  ⟨by decide, by decide, by decide, by decide, by decide, by decide,
    (conversions_exact_of_fits cfg_shunt100 0x100 (by decide) (by decide) (by decide)
      (by decide) (by decide) (by decide)).1,
    (conversions_exact_of_fits cfg_shunt100 0x100 (by decide) (by decide) (by decide)
      (by decide) (by decide) (by decide)).2.1⟩

/-! ## Checksum engine: single-bit flips -/

theorem crc_unshift_shift : ∀ c, c < 256 → crc_unshift (crc_shift c) = c := by
  decide

theorem crc_shift_lt (c : Nat) : crc_shift c < 256 := by
  unfold crc_shift
  split
  · exact Nat.xor_lt_two_pow (n := 8) (Nat.mod_lt _ (by decide)) (by decide)
  · exact Nat.mod_lt _ (by decide)

theorem crc_shift_iterate_lt (n c : Nat) (hc : c < 256) : crc_shift^[n] c < 256 := by
  induction n generalizing c with
  | zero => simpa using hc
  | succ n ih => exact ih _ (crc_shift_lt c)

theorem crc_shift_iterate_inj (n a b : Nat) (ha : a < 256) (hb : b < 256)
    (h : crc_shift^[n] a = crc_shift^[n] b) : a = b := by
  induction n generalizing a b with
  | zero => simpa using h
  | succ n ih =>
    have h' := ih _ _ (crc_shift_lt a) (crc_shift_lt b) h
    rw [← crc_unshift_shift a ha, ← crc_unshift_shift b hb, h']

theorem crc_write_lt (dr b : Nat) : crc_write dr b < 256 :=
  crc_shift_iterate_lt 8 _
    (Nat.xor_lt_two_pow (n := 8) (Nat.mod_lt _ (by decide)) (Nat.mod_lt _ (by decide)))

theorem crc_write_inj {dr dr' b b' : Nat} (h : crc_write dr b = crc_write dr' b') :
    (dr % 256) ^^^ (b % 256) = (dr' % 256) ^^^ (b' % 256) :=
  crc_shift_iterate_inj 8 _ _
    (Nat.xor_lt_two_pow (n := 8) (Nat.mod_lt _ (by decide)) (Nat.mod_lt _ (by decide)))
    (Nat.xor_lt_two_pow (n := 8) (Nat.mod_lt _ (by decide)) (Nat.mod_lt _ (by decide))) h

theorem crc_fold_inj (data : List Nat) (d d' : Nat) (hd : d % 256 ≠ d' % 256) :
    (data.foldl crc_write d) % 256 ≠ (data.foldl crc_write d') % 256 := by
  induction data generalizing d d' with
  | nil => simpa using hd
  | cons x xs ih =>
    simp only [List.foldl_cons]
    apply ih
    rw [Nat.mod_eq_of_lt (crc_write_lt d x), Nat.mod_eq_of_lt (crc_write_lt d' x)]
    intro h
    exact hd (Nat.xor_left_injective (crc_write_inj h))

theorem flip_mod_ne (x k : Nat) (hk : k < 8) : (x ^^^ 2 ^ k) % 256 ≠ x % 256 := by
  intro h
  have h1 := congrArg (fun n => n.testBit k) h
  have h256 : (256 : Nat) = 2 ^ 8 := by norm_num
  simp only [h256, Nat.testBit_mod_two_pow, Nat.testBit_xor, Nat.testBit_two_pow_self, hk,
    decide_True, Bool.true_and] at h1
  cases hx : x.testBit k <;> simp [hx] at h1

theorem crc_fold_flip (data : List Nat) (i k d : Nat) (hi : i < data.length) (hk : k < 8) :
    ((flip_bit data i k).foldl crc_write d) % 256 ≠ (data.foldl crc_write d) % 256 := by
  induction data generalizing i d with
  | nil => simp at hi
  | cons x xs ih =>
    cases i with
    | zero =>
      simp only [flip_bit, List.set_cons_zero, List.foldl_cons, List.getD_cons_zero]
      apply crc_fold_inj
      rw [Nat.mod_eq_of_lt (crc_write_lt _ _), Nat.mod_eq_of_lt (crc_write_lt _ _)]
      intro h
      exact flip_mod_ne x k hk (Nat.xor_right_injective (crc_write_inj h))
    | succ j =>
      have := ih j (crc_write d x) (by simpa using hi)
      simpa [flip_bit] using this

theorem crc_range_fold (data : List Nat) (d : Nat) :
    (List.range data.length).foldl (fun dr i => crc_write dr (data.getD i 0)) d
      = data.foldl crc_write d := by
  have h : (List.range data.length).map (fun i => data.getD i 0) = data := by
    apply List.ext_getElem
    · simp
    · intro n h1 h2
      simp at h1
      simp [h1]
  conv_rhs => rw [← h]
  rw [List.foldl_map]

/-- Claim C8: for the 8-bit CRC with polynomial `0x07` and initial value 0, fed
most significant bit first, as `crc_init` configures it, inverting any one bit
(bit `k` of the byte at index `i`) of a byte span changes the value
`crc_calculate` returns for the span, whatever the CRC data register held
before either call. -/
theorem crc_calculate_single_bit_flip (data : List Nat) (i k dr dr' : Nat)
    (hi : i < data.length) (hk : k < 8) :
    (flip_bit data i k).length = data.length ∧
    (crc_calculate dr (flip_bit data i k) (flip_bit data i k).length).2
      ≠ (crc_calculate dr' data data.length).2 := by
  refine ⟨by simp [flip_bit], ?_⟩
  simp only [crc_calculate, crc_range_fold, CRC_INIT]
  exact crc_fold_flip data i k 0 hi hk

/-- Witness of `crc_calculate_single_bit_flip`: the top bit of the third of
five bytes. -/
theorem crc_calculate_single_bit_flip_witness :
    2 < [0xA5, 0x04, 0x03, 0x02, 0x01].length ∧ 7 < 8 ∧
    (flip_bit [0xA5, 0x04, 0x03, 0x02, 0x01] 2 7).length
      = [0xA5, 0x04, 0x03, 0x02, 0x01].length ∧
    (crc_calculate 0 (flip_bit [0xA5, 0x04, 0x03, 0x02, 0x01] 2 7)
        (flip_bit [0xA5, 0x04, 0x03, 0x02, 0x01] 2 7).length).2
      ≠ (crc_calculate 0 [0xA5, 0x04, 0x03, 0x02, 0x01]
          [0xA5, 0x04, 0x03, 0x02, 0x01].length).2 :=
  ⟨by decide, by decide,
    crc_calculate_single_bit_flip [0xA5, 0x04, 0x03, 0x02, 0x01] 2 7 0 0
      (by decide) (by decide)⟩

/-! ## The stream of frames -/

theorem raw_take_succ (p : UartPacket_t) (i : Nat) (hi : i < UART_MSG_SIZE) :
    p.m_acRawBuffer.take i ++ [p.m_acRawBuffer.getD i 0]
      = p.m_acRawBuffer.take (i + 1) := by
  simp only [UART_MSG_SIZE] at hi
  interval_cases i <;> rfl

theorem Inv_send_data (s : State) (current voltage : Nat) (hs : Inv s) :
    Inv (send_data s current voltage) := by
  cases hst : s.g_eTxStatus with
  | TX_IN_PROGRESS =>
    rw [send_data_busy_eq s current voltage (by rw [hst]; decide)]
    exact hs
  | TX_IS_FREE =>
    obtain ⟨hraw, hidx, hbusy, -, hout, -⟩ := send_data_idle_facts s current voltage hst
    obtain ⟨-, hfree, -⟩ := hs
    obtain ⟨-, frames, hfr, hlog⟩ := hfree hst
    refine ⟨by rw [hidx]; decide, fun hc => ?_, fun _ => ?_⟩
    · rw [hbusy] at hc
      cases hc
    refine ⟨by rw [hidx], by rw [hraw]; exact sent_frame_valid, frames, hfr, ?_⟩
    rw [hout, hidx, hraw, hlog]
    rfl

theorem Inv_send_next_char (s : State) (hs : Inv s) (hen : s.TXEIE = true) :
    Inv (send_next_char s) := by
  obtain ⟨hidx, hfree, hbusy⟩ := hs
  cases hst : s.g_eTxStatus with
  | TX_IS_FREE =>
    rw [(hfree hst).1] at hen
    cases hen
  | TX_IN_PROGRESS =>
    obtain ⟨hpos, hvalid, frames, hfr, hlog⟩ := hbusy hst
    by_cases hlt : s.g_sUartPacket.m_u8TxIdx < UART_MSG_SIZE
    · rw [send_next_char_lt s hlt]
      refine ⟨Nat.succ_le_of_lt hlt, fun hc => ?_, fun _ => ⟨Nat.le_add_left 1 _, hvalid,
        frames, hfr, ?_⟩⟩
      · rw [hst] at hc
        cases hc
      · show s.USART2_TDR ++ [s.g_sUartPacket.m_acRawBuffer.getD s.g_sUartPacket.m_u8TxIdx 0]
          = frames.flatten ++
            s.g_sUartPacket.m_acRawBuffer.take (s.g_sUartPacket.m_u8TxIdx + 1)
        rw [hlog, List.append_assoc, raw_take_succ _ _ hlt]
    · have heq : s.g_sUartPacket.m_u8TxIdx = UART_MSG_SIZE := by omega
      rw [send_next_char_ge s (by omega)]
      refine ⟨hidx, fun _ => ⟨rfl, frames ++ [s.g_sUartPacket.m_acRawBuffer], ?_, ?_⟩,
        fun hc => ?_⟩
      · intro f hf
        rcases List.mem_append.1 hf with hf | hf
        · exact hfr f hf
        · rw [List.mem_singleton.1 hf]
          exact hvalid
      · show s.USART2_TDR = _
        rw [hlog, heq, List.flatten_concat, List.take_of_length_le (le_of_eq hvalid.1)]
      · cases hc

theorem Inv_flag (s : State) (flag : Nat) (hs : Inv s) :
    Inv { s with g_u8AdcRdyFlag := flag } := hs

theorem Inv_step (cfg : AppCfg) (s : State) (e : Event) (hs : Inv s) :
    Inv (step cfg s e) := by
  cases e with
  | dma tcif =>
    cases tcif
    · exact hs
    · exact Inv_flag s 1 hs
  | main adc0 adc1 =>
    show Inv (main_loop_body cfg adc0 adc1 s)
    unfold main_loop_body
    split
    · split
      · exact Inv_send_data _ _ _ (Inv_flag s 0 hs)
      · exact Inv_send_data _ _ _ (Inv_flag s 0 hs)
    · exact hs
  | txe =>
    show Inv (if s.TXEIE then USART2_IRQHandler true s else s)
    split
    · rename_i hen
      exact Inv_send_next_char s hs hen
    · exact hs

theorem Inv_run (cfg : AppCfg) (evs : List Event) (s : State) (hs : Inv s) :
    Inv (run cfg s evs) := by
  induction evs generalizing s with
  | nil => exact hs
  | cons e es ih => exact ih _ (Inv_step cfg s e hs)

theorem Inv_main_init (dr : Nat) : Inv (main_init dr) := by
  refine ⟨Nat.zero_le _, fun _ => ⟨rfl, [], ?_, rfl⟩, fun hc => ?_⟩
  · intro f hf
    cases hf
  · cases hc

theorem Inv_framed (s : State) (hs : Inv s) : Framed s.USART2_TDR := by
  obtain ⟨hidx, hfree, hbusy⟩ := hs
  cases hst : s.g_eTxStatus with
  | TX_IS_FREE =>
    obtain ⟨-, frames, hfr, hlog⟩ := hfree hst
    refine ⟨frames, _, 0, hfr, sent_frame_valid, by decide, ?_⟩
    rw [hlog, List.take_zero, List.append_nil]
  | TX_IN_PROGRESS =>
    obtain ⟨hpos, hvalid, frames, hfr, hlog⟩ := hbusy hst
    by_cases hlt : s.g_sUartPacket.m_u8TxIdx < UART_MSG_SIZE
    · exact ⟨frames, _, _, hfr, hvalid, hlt, hlog⟩
    · have heq : s.g_sUartPacket.m_u8TxIdx = UART_MSG_SIZE := by omega
      refine ⟨frames ++ [s.g_sUartPacket.m_acRawBuffer], s.g_sUartPacket.m_acRawBuffer, 0,
        ?_, hvalid, by decide, ?_⟩
      · intro f hf
        rcases List.mem_append.1 hf with hf | hf
        · exact hfr f hf
        · rw [List.mem_singleton.1 hf]
          exact hvalid
      · rw [hlog, heq, List.flatten_concat, List.take_of_length_le (le_of_eq hvalid.1),
          List.take_zero, List.append_nil]

theorem step_keeps_packet (cfg : AppCfg) (s : State) (e : Event)
    (h : s.g_eTxStatus = TX_IN_PROGRESS) :
    (step cfg s e).g_sUartPacket.m_acRawBuffer = s.g_sUartPacket.m_acRawBuffer := by
  cases e with
  | dma tcif => cases tcif <;> rfl
  | main adc0 adc1 =>
    show (main_loop_body cfg adc0 adc1 s).g_sUartPacket.m_acRawBuffer = _
    unfold main_loop_body
    split
    · split <;> rw [send_data_busy_eq _ _ _ (by rw [h]; decide)]
    · rfl
  | txe =>
    show (if s.TXEIE then USART2_IRQHandler true s else s).g_sUartPacket.m_acRawBuffer = _
    split
    · show (send_next_char s).g_sUartPacket.m_acRawBuffer = _
      unfold send_next_char
      split <;> rfl
    · rfl

/-- Claim C10: from the state in which `main` enters its loop, after every
finite sequence of DMA interrupts, main loop passes with arbitrary sample
values and byte-ready events (the handler running only while `TXEIE` is set),
the cursor is at most `UART_MSG_SIZE`, which is the length of the packet
buffer; no event changes the packet bytes while the status is
`TX_IN_PROGRESS`; and the bytes written to `USART2->TDR` are complete frames,
each `UART_MSG_SIZE` bytes starting with `0xA5` and ending with the checksum of
the bytes before it, followed by an initial segment of one further frame. -/
theorem stream_framing_invariant (cfg : AppCfg) (dr : Nat) (evs : List Event) :
    (run cfg (main_init dr) evs).g_sUartPacket.m_u8TxIdx ≤ UART_MSG_SIZE ∧
    (run cfg (main_init dr) evs).g_sUartPacket.m_acRawBuffer.length = UART_MSG_SIZE ∧
    (∀ e, (run cfg (main_init dr) evs).g_eTxStatus = TX_IN_PROGRESS →
      (step cfg (run cfg (main_init dr) evs) e).g_sUartPacket.m_acRawBuffer
        = (run cfg (main_init dr) evs).g_sUartPacket.m_acRawBuffer) ∧
    Framed (run cfg (main_init dr) evs).USART2_TDR :=
  ⟨(Inv_run cfg evs _ (Inv_main_init dr)).1, rfl,
    fun e h => step_keeps_packet cfg _ e h,
    Inv_framed _ (Inv_run cfg evs _ (Inv_main_init dr))⟩

/-- Witness of `stream_framing_invariant`: a DMA interrupt, a main loop pass and
one byte-ready event with gain 50 and shunt 100; the engine is then in
progress. -/
theorem stream_framing_invariant_witness :
    (run cfg_shunt100 (main_init 0)
      [Event.dma true, Event.main 0x100 0x200, Event.txe]).g_eTxStatus = TX_IN_PROGRESS ∧
    (run cfg_shunt100 (main_init 0)
      [Event.dma true, Event.main 0x100 0x200, Event.txe]).g_sUartPacket.m_u8TxIdx
        ≤ UART_MSG_SIZE ∧
    Framed (run cfg_shunt100 (main_init 0)
      [Event.dma true, Event.main 0x100 0x200, Event.txe]).USART2_TDR :=
  ⟨by decide,
    (stream_framing_invariant cfg_shunt100 0
      [Event.dma true, Event.main 0x100 0x200, Event.txe]).1,
    (stream_framing_invariant cfg_shunt100 0
      [Event.dma true, Event.main 0x100 0x200, Event.txe]).2.2.2⟩

end UsbSpyCurrent
